import Mathlib

/-!
Verification development for the satellite-tracker repository
(`src/script.js`, plus the earlier revision in `src/unnamed/part_002`).

The pass-prediction engine (`predictPasses` / `findBestPassDetails`,
`src/script.js:1195-1307`) is embedded as a shallow state-passing model.
The external satellite.js propagation pipeline
(`satellite.propagate`, `satellite.gstime`, `satellite.eciToEcf`,
`satellite.geodeticToEcf`, `satellite.ecfToLookAngles`) together with the
per-sample derived scalars computed from its outputs (the look-angle
elevation in radians, the off-nadir angle in degrees obtained from the
ECF dot product / acos at `src/script.js:1269-1276`, and the sun elevation
in degrees from `getSunPosition` at `src/script.js:1279-1286`) is an
external collaborator; it is modelled as an abstract sampler
`ℤ → Option PropagationSample` giving, for each instant (ms timestamp),
either the three derived scalars or `none` when `satellite.propagate`
returns no position.  All control flow of the two scan loops — the
60 s coarse scan with its `inPass` state machine and `limit` break, the
5 s fine refinement with its strict-min update and its daylight /
off-nadir acceptance filter — is translated statement by statement from
the source.

The spherical-geometry functions (`calculateFootprintRadius` in both
repository revisions, the solar-elevation formula of
`updateSolarAngleLayer`, and `getTerminatorPath`/`getCirclePath`) are
embedded over the real numbers, with JavaScript `Math.sin`/`Math.asin`/
`Math.atan2` read as the exact real functions.
-/

namespace SatTrack

/-- Per-instant output of the external propagation pipeline, as consumed by
the scan loops of `src/script.js`: the look-angle elevation
(`lookAngles.elevation`, radians), the off-nadir angle (degrees, computed
at `src/script.js:1269-1276`), and the sun elevation at the observer
(degrees, computed at `src/script.js:1279-1286`).  A sampler returns
`none` at an instant when `satellite.propagate` returns no position
(`!positionAndVelocity.position`). -/
structure PropagationSample where
  elevationRad : ℤ
  offNadirDeg : ℤ
  sunElevationDeg : ℤ
  deriving DecidableEq

/-- The external propagation pipeline for one satellite and one observer:
derived scalars at each instant (ms since epoch). -/
abbrev Sampler := ℤ → Option PropagationSample

/-- The `Pass` record built at `src/script.js:1290-1296`.  The satellite
identity passthrough (`satName`) is omitted.  The source stores
`maxElevation: lookAngles.elevation * (180 / Math.PI)`; the model keeps
the radian value `maxElevationRad` and exposes the degree conversion as
`Pass.maxElevationDeg`. -/
structure Pass where
  startTime : ℤ
  maxElevationRad : ℤ
  minOffNadir : ℤ
  sunElevationAtMax : ℤ
  deriving DecidableEq

/-- The `maxElevation` field the source stores, in degrees:
`lookAngles.elevation * (180 / Math.PI)` (`src/script.js:1293`). -/
noncomputable def Pass.maxElevationDeg (p : Pass) : ℝ :=
  (p.maxElevationRad : ℝ) * (180 / Real.pi)

/-- The fine 5-second refinement loop of `findBestPassDetails`
(`src/script.js:1252-1299`): `for (let t = startMs; t <= endMs; t += 5000)`.
A `none` sample is skipped (`continue`); among samples with
`lookAngles.elevation > 0` the one with strictly smaller `offNadirDeg`
than the current best replaces it (`!bestDetails || offNadirDeg <
bestDetails.minOffNadir`).  `fuel` counts the remaining iterations; the
loop condition `t ≤ endMs` is also checked at each step. -/
def fineLoop (sample : Sampler) (endMs : ℤ) : ℕ → ℤ → Option Pass → Option Pass
  | 0, _, best => best
  | fuel + 1, t, best =>
    if t ≤ endMs then
      match sample t with
      | none => fineLoop sample endMs fuel (t + 5000) best
      | some s =>
        if 0 < s.elevationRad then
          match best with
          | none =>
            fineLoop sample endMs fuel (t + 5000)
              (some ⟨t, s.elevationRad, s.offNadirDeg, s.sunElevationDeg⟩)
          | some b =>
            if s.offNadirDeg < b.minOffNadir then
              fineLoop sample endMs fuel (t + 5000)
                (some ⟨t, s.elevationRad, s.offNadirDeg, s.sunElevationDeg⟩)
            else
              fineLoop sample endMs fuel (t + 5000) (some b)
        else
          fineLoop sample endMs fuel (t + 5000) best
    else best

/-- Number of iterations of `for (let t = startMs; t <= endMs; t += 5000)`. -/
def fineFuel (startMs endMs : ℤ) : ℕ :=
  if endMs < startMs then 0 else ((endMs - startMs) / 5000 + 1).toNat

/-- `findBestPassDetails` (`src/script.js:1248-1307`): fine scan of
`[startMs, endMs]` followed by the acceptance filter
`isDaylight && bestDetails.minOffNadir <= maxOffNadir`
(`src/script.js:1302-1305`). -/
def findBestPassDetails (sample : Sampler) (startMs endMs maxOffNadir : ℤ) :
    Option Pass :=
  match fineLoop sample endMs (fineFuel startMs endMs) startMs none with
  | none => none
  | some b =>
    if 0 < b.sunElevationAtMax ∧ b.minOffNadir ≤ maxOffNadir then some b else none

/-- The coarse 60-second scan loop of `predictPasses`
(`src/script.js:1206-1237`): `for (let t = 0; t < maxTime; t += 60000)`.
At the top of each iteration the early-exit check
`if (passes.length >= limit) break` runs; a `none` sample is skipped
(`continue`) leaving the `inPass` state unchanged; `elevation > 0` enters
or continues a pass (recording `passStartTime = t` on the false→true
transition); otherwise an in-progress pass `[passStart, t]` is handed to
`findBestPassDetails` at absolute times and an accepted result is pushed.
Returns the passes together with the final `inPass` and `passStartTime`
state (consumed by the end-of-horizon check at `src/script.js:1240-1243`). -/
def coarseLoop (sample : Sampler) (maxOffNadir limit startTime maxTime : ℤ) :
    ℕ → ℤ → Bool → ℤ → List Pass → List Pass × Bool × ℤ
  | 0, _, inPass, passStart, passes => (passes, inPass, passStart)
  | fuel + 1, t, inPass, passStart, passes =>
    if t < maxTime then
      if limit ≤ (passes.length : ℤ) then (passes, inPass, passStart)
      else
        match sample (startTime + t) with
        | none =>
          coarseLoop sample maxOffNadir limit startTime maxTime
            fuel (t + 60000) inPass passStart passes
        | some s =>
          if 0 < s.elevationRad then
            if inPass then
              coarseLoop sample maxOffNadir limit startTime maxTime
                fuel (t + 60000) true passStart passes
            else
              coarseLoop sample maxOffNadir limit startTime maxTime
                fuel (t + 60000) true t passes
          else
            if inPass then
              coarseLoop sample maxOffNadir limit startTime maxTime
                fuel (t + 60000) false passStart
                (match findBestPassDetails sample (startTime + passStart)
                    (startTime + t) maxOffNadir with
                 | none => passes
                 | some p => passes ++ [p])
            else
              coarseLoop sample maxOffNadir limit startTime maxTime
                fuel (t + 60000) false passStart passes
    else (passes, inPass, passStart)

/-- Number of iterations of `for (let t = 0; t < maxTime; t += 60000)`. -/
def coarseFuel (maxTime : ℤ) : ℕ :=
  if maxTime ≤ 0 then 0 else ((maxTime + 59999) / 60000).toNat

/-- `predictPasses` (`src/script.js:1195-1246`): coarse scan over
`maxDays * 24 * 60 * 60 * 1000` ms from `startTime` (`now.getTime()`),
then the end-of-horizon check: if the scan ended still `inPass`, the open
interval `[startTime + passStart, startTime + maxTime]` is refined and an
accepted result pushed (`src/script.js:1240-1243`). -/
def predictPasses (sample : Sampler) (maxOffNadir limit maxDays startTime : ℤ) :
    List Pass :=
  let maxTime := maxDays * 86400000
  match coarseLoop sample maxOffNadir limit startTime maxTime
      (coarseFuel maxTime) 0 false 0 [] with
  | (passes, inPass, passStart) =>
    if inPass then
      match findBestPassDetails sample (startTime + passStart)
          (startTime + maxTime) maxOffNadir with
      | none => passes
      | some p => passes ++ [p]
    else passes

/-- Modelled from the spec: the alternative coarse-scan semantics asserted
by the specification's error-handling policy, in which a sampled instant
with no propagator position is "treated as not visible (equivalent to
elevation ≤ 0, so an in-progress pass ends at that sample)".  Identical
to `coarseLoop` except that the `none` branch behaves exactly like the
`elevation ≤ 0` branch.  Used only to compare against the source's actual
behaviour (which `continue`s with the `inPass` state unchanged). -/
def coarseLoopNoneNotVisible (sample : Sampler)
    (maxOffNadir limit startTime maxTime : ℤ) :
    ℕ → ℤ → Bool → ℤ → List Pass → List Pass × Bool × ℤ
  | 0, _, inPass, passStart, passes => (passes, inPass, passStart)
  | fuel + 1, t, inPass, passStart, passes =>
    if t < maxTime then
      if limit ≤ (passes.length : ℤ) then (passes, inPass, passStart)
      else
        match sample (startTime + t) with
        | none =>
          if inPass then
            coarseLoopNoneNotVisible sample maxOffNadir limit startTime maxTime
              fuel (t + 60000) false passStart
              (match findBestPassDetails sample (startTime + passStart)
                  (startTime + t) maxOffNadir with
               | none => passes
               | some p => passes ++ [p])
          else
            coarseLoopNoneNotVisible sample maxOffNadir limit startTime maxTime
              fuel (t + 60000) false passStart passes
        | some s =>
          if 0 < s.elevationRad then
            if inPass then
              coarseLoopNoneNotVisible sample maxOffNadir limit startTime maxTime
                fuel (t + 60000) true passStart passes
            else
              coarseLoopNoneNotVisible sample maxOffNadir limit startTime maxTime
                fuel (t + 60000) true t passes
          else
            if inPass then
              coarseLoopNoneNotVisible sample maxOffNadir limit startTime maxTime
                fuel (t + 60000) false passStart
                (match findBestPassDetails sample (startTime + passStart)
                    (startTime + t) maxOffNadir with
                 | none => passes
                 | some p => passes ++ [p])
            else
              coarseLoopNoneNotVisible sample maxOffNadir limit startTime maxTime
                fuel (t + 60000) false passStart passes
    else (passes, inPass, passStart)

/-- Modelled from the spec: `predictPasses` under the alternative
"propagation failure is not visible" coarse-scan semantics
(`coarseLoopNoneNotVisible`); the fine loop is unchanged since there a
`none` sample is skipped either way. -/
def predictPassesNoneNotVisible (sample : Sampler)
    (maxOffNadir limit maxDays startTime : ℤ) : List Pass :=
  let maxTime := maxDays * 86400000
  match coarseLoopNoneNotVisible sample maxOffNadir limit startTime maxTime
      (coarseFuel maxTime) 0 false 0 [] with
  | (passes, inPass, passStart) =>
    if inPass then
      match findBestPassDetails sample (startTime + passStart)
          (startTime + maxTime) maxOffNadir with
      | none => passes
      | some p => passes ++ [p]
    else passes

/-- A concrete propagation pipeline with one short pass right at the start
of the scan (elevation above the horizon for the first coarse minute),
used to exercise the model on closed inputs. -/
def sampleShortPass : Sampler := fun t =>
  if t < 60000 then some ⟨1, 5, 10⟩ else some ⟨-1, 5, 10⟩

/-- A concrete propagation pipeline whose single pass has off-nadir angle
95°, outside any [1, 90] off-nadir constraint. -/
def sampleWideOffNadir : Sampler := fun t =>
  if t < 60000 then some ⟨1, 95, 10⟩ else some ⟨-1, 95, 10⟩

/-- A concrete propagation pipeline with a propagation gap (no position)
in the middle of a visibility window, followed by a second, separate
window: visible with off-nadir 5° during minute 1, no position during
minute 2, visible with off-nadir 20° during minute 3, below the horizon
during minute 4, visible with off-nadir 8° during minute 5, and below the
horizon afterwards. -/
def samplePropGap : Sampler := fun t =>
  if t < 60000 then some ⟨1, 5, 10⟩
  else if t < 120000 then none
  else if t < 180000 then some ⟨1, 20, 10⟩
  else if t < 240000 then some ⟨-1, 50, 10⟩
  else if t < 300000 then some ⟨1, 8, 10⟩
  else some ⟨-1, 50, 10⟩

/-- The unclamped quantity
`term = ((R_EARTH + altitudeKm) / R_EARTH) * Math.sin(alpha)` computed by
both revisions of `calculateFootprintRadius` (`src/script.js:340-341`,
`src/unnamed/part_002:2725-2726`), with
`alpha = offNadirDeg * (Math.PI / 180)` and `R_EARTH = 6371` km. -/
noncomputable def footprintTerm (altitudeKm offNadirDeg : ℝ) : ℝ :=
  ((6371 + altitudeKm) / 6371) * Real.sin (offNadirDeg * (Real.pi / 180))

/-- The clamp `if (term > 1) term = 1` of the `src/script.js` revision
(`src/script.js:343`). -/
noncomputable def footprintTermClamped (altitudeKm offNadirDeg : ℝ) : ℝ :=
  if 1 < footprintTerm altitudeKm offNadirDeg then 1
  else footprintTerm altitudeKm offNadirDeg

/-- `calculateFootprintRadius` (`src/script.js:322-354`), the clamping
revision: `eta = Math.asin(term)`, `beta = eta - alpha`,
`distanceKm = R_EARTH * beta`, returned in metres (`* 1000`). -/
noncomputable def calculateFootprintRadius (altitudeKm offNadirDeg : ℝ) : ℝ :=
  6371 * (Real.arcsin (footprintTermClamped altitudeKm offNadirDeg) -
    offNadirDeg * (Real.pi / 180)) * 1000

/-- `calculateFootprintRadius` (`src/unnamed/part_002:2707-2742`), the
return-0-beyond-horizon revision: `if (term > 1) { return 0; }`,
otherwise the same arc length as the clamping revision (on such inputs
the clamp is the identity). -/
noncomputable def calculateFootprintRadius_part002
    (altitudeKm offNadirDeg : ℝ) : ℝ :=
  if 1 < footprintTerm altitudeKm offNadirDeg then 0
  else 6371 * (Real.arcsin (footprintTerm altitudeKm offNadirDeg) -
    offNadirDeg * (Real.pi / 180)) * 1000

/-- The sine of solar elevation computed in the latitude scans of
`updateSolarAngleLayer` (`src/script.js:466-488`):
`sinEl = sinLat * sinDec + cosLat * cosDec * cosH`, every angle entering
through `deg * rad` with `rad = Math.PI / 180`. -/
noncomputable def sinSolarElevation (latDeg decDeg hourAngleDeg : ℝ) : ℝ :=
  Real.sin (latDeg * (Real.pi / 180)) * Real.sin (decDeg * (Real.pi / 180)) +
    Real.cos (latDeg * (Real.pi / 180)) *
      Real.cos (decDeg * (Real.pi / 180)) *
      Real.cos (hourAngleDeg * (Real.pi / 180))

/-- The set of scan latitudes classified "good" by `updateSolarAngleLayer`
(`if (sinEl >= sinMinEl)`, `src/script.js:471` and `src/script.js:484`,
with `minEl_deg = 30`) at a given hour angle. -/
def solarGoodSet (decDeg hourAngleDeg : ℝ) : Set ℝ :=
  {latDeg | latDeg ∈ Set.Icc (-90 : ℝ) 90 ∧
    Real.sin (30 * (Real.pi / 180)) ≤
      sinSolarElevation latDeg decDeg hourAngleDeg}

/-- A `{lat, lng}` vertex as pushed by `getCirclePath`
(`src/script.js:632`). -/
structure LatLng where
  lat : ℝ
  lng : ℝ

/-- JavaScript `Math.atan2(y, x)`: the argument of the complex number
`x + y*i`. -/
noncomputable def atan2 (y x : ℝ) : ℝ := Complex.arg ⟨x, y⟩

/-- The body of the `getCirclePath` loop (`src/script.js:618-632`) at one
bearing: the spherical destination point at angular distance `radiusDeg`
from the centre, with the sequential clamps
`if (arg > 1) arg = 1; if (arg < -1) arg = -1`. -/
noncomputable def circlePoint (centerLat centerLng radiusDeg bearing : ℝ) :
    LatLng :=
  let dist := radiusDeg * (Real.pi / 180)
  let lat1 := centerLat * (Real.pi / 180)
  let lon1 := centerLng * (Real.pi / 180)
  let brng := bearing * (Real.pi / 180)
  let arg0 := Real.sin lat1 * Real.cos dist +
    Real.cos lat1 * Real.sin dist * Real.cos brng
  let arg1 := if 1 < arg0 then 1 else arg0
  let arg2 := if arg1 < -1 then -1 else arg1
  let lat2 := Real.arcsin arg2
  let lon2 := lon1 + atan2 (Real.sin brng * Real.sin dist * Real.cos lat1)
    (Real.cos dist - Real.sin lat1 * Real.sin lat2)
  ⟨lat2 * (180 / Real.pi), lon2 * (180 / Real.pi)⟩

/-- `getCirclePath` (`src/script.js:613-636`):
`for (let i = 0; i <= 360; i += 5)` pushes one vertex per bearing
`0, 5, …, 360` — 73 vertices, the iterates being `5 * k` for
`k = 0, …, 72`. -/
noncomputable def getCirclePath (centerLat centerLng radiusDeg : ℝ) :
    List LatLng :=
  (List.range 73).map fun i : ℕ =>
    circlePoint centerLat centerLng radiusDeg (5 * (i : ℝ))

/-- `getTerminatorPath` (`src/script.js:603-611`): the circle of radius
90° about the antipode of the sub-solar point, the antipodal longitude
being renormalized by `if (nightLng > 180) nightLng -= 360`. -/
noncomputable def getTerminatorPath (sunLat sunLng : ℝ) : List LatLng :=
  let nightLat := -sunLat
  let nightLng := sunLng + 180
  getCirclePath nightLat (if 180 < nightLng then nightLng - 360 else nightLng)
    90

/-- Any `Pass` produced by the fine refinement loop was recorded at a
sample instant inside the scanned interval with `elevation > 0`
(`src/script.js:1288-1297`): its `startTime` lies between the lower bound
`lb` (the loop's initial `t`) and `endMs`, and its elevation is positive;
this holds provided the incoming `best` candidate already satisfies the
same bounds. -/
theorem fineLoop_some (sample : Sampler) (endMs lb : ℤ) :
    ∀ (fuel : ℕ) (t : ℤ) (best : Option Pass) (p : Pass),
      lb ≤ t →
      (∀ b, best = some b →
        lb ≤ b.startTime ∧ b.startTime ≤ endMs ∧ 0 < b.maxElevationRad) →
      fineLoop sample endMs fuel t best = some p →
      lb ≤ p.startTime ∧ p.startTime ≤ endMs ∧ 0 < p.maxElevationRad := by
  intro fuel
  induction fuel with
  | zero =>
    intro t best p _ hbest h
    exact hbest p h
  | succ n ih =>
    intro t best p hlb hbest h
    rw [fineLoop] at h
    by_cases hte : t ≤ endMs
    · cases hs : sample t with
      | none =>
        simp only [hs, if_pos hte] at h
        exact ih (t + 5000) best p (by linarith) hbest h
      | some s =>
        by_cases hel : 0 < s.elevationRad
        · cases best with
          | none =>
            simp only [hs, if_pos hte, if_pos hel] at h
            refine ih (t + 5000) _ p (by linarith) ?_ h
            intro b hb
            cases hb
            exact ⟨hlb, hte, hel⟩
          | some b =>
            by_cases hoff : s.offNadirDeg < b.minOffNadir
            · simp only [hs, if_pos hte, if_pos hel, if_pos hoff] at h
              refine ih (t + 5000) _ p (by linarith) ?_ h
              intro b' hb'
              cases hb'
              exact ⟨hlb, hte, hel⟩
            · simp only [hs, if_pos hte, if_pos hel, if_neg hoff] at h
              exact ih (t + 5000) _ p (by linarith) hbest h
        · simp only [hs, if_pos hte, if_neg hel] at h
          exact ih (t + 5000) best p (by linarith) hbest h
    · simp only [if_neg hte] at h
      exact hbest p h

/-- Any `Pass` accepted by `findBestPassDetails` was recorded inside the
scanned interval, above the horizon, in daylight, and within the
off-nadir constraint (`src/script.js:1288-1305`). -/
theorem findBestPassDetails_some (sample : Sampler) (startMs endMs maxOffNadir : ℤ)
    (p : Pass)
    (h : findBestPassDetails sample startMs endMs maxOffNadir = some p) :
    startMs ≤ p.startTime ∧ p.startTime ≤ endMs ∧ 0 < p.maxElevationRad ∧
      0 < p.sunElevationAtMax ∧ p.minOffNadir ≤ maxOffNadir := by
  rw [findBestPassDetails] at h
  cases hf : fineLoop sample endMs (fineFuel startMs endMs) startMs none with
  | none =>
    rw [hf] at h
    exact absurd h (by simp)
  | some b =>
    by_cases hc : 0 < b.sunElevationAtMax ∧ b.minOffNadir ≤ maxOffNadir
    · simp only [hf, if_pos hc] at h
      cases h
      obtain ⟨h1, h2, h3⟩ :=
        fineLoop_some sample endMs startMs (fineFuel startMs endMs) startMs none p
          le_rfl (by intro b' hb'; cases hb') hf
      exact ⟨h1, h2, h3, hc.1, hc.2⟩
    · simp only [hf, if_neg hc] at h
      cases h

/-- Every pass in the coarse loop's accumulator satisfies the acceptance
filter of `findBestPassDetails` and was recorded above the horizon,
provided the incoming accumulator already does. -/
theorem coarseLoop_mem (sample : Sampler) (maxOffNadir limit startTime maxTime : ℤ) :
    ∀ (fuel : ℕ) (t : ℤ) (inPass : Bool) (passStart : ℤ) (passes : List Pass),
      (∀ p ∈ passes, 0 < p.maxElevationRad ∧ 0 < p.sunElevationAtMax ∧
        p.minOffNadir ≤ maxOffNadir) →
      ∀ p ∈ (coarseLoop sample maxOffNadir limit startTime maxTime
          fuel t inPass passStart passes).1,
        0 < p.maxElevationRad ∧ 0 < p.sunElevationAtMax ∧
          p.minOffNadir ≤ maxOffNadir := by
  intro fuel
  induction fuel with
  | zero =>
    intro t inPass passStart passes hps
    simpa only [coarseLoop] using hps
  | succ n ih =>
    intro t inPass passStart passes hps
    rw [coarseLoop]
    by_cases h1 : t < maxTime
    · by_cases h2 : limit ≤ (passes.length : ℤ)
      · simpa only [if_pos h1, if_pos h2] using hps
      · cases hs : sample (startTime + t) with
        | none =>
          simp only [if_pos h1, if_neg h2, hs]
          exact ih (t + 60000) inPass passStart passes hps
        | some s =>
          by_cases hel : 0 < s.elevationRad
          · cases inPass with
            | true =>
              simp only [if_pos h1, if_neg h2, hs, if_pos hel, if_true]
              exact ih (t + 60000) true passStart passes hps
            | false =>
              simp only [if_pos h1, if_neg h2, hs, if_pos hel, if_false]
              exact ih (t + 60000) true t passes hps
          · cases inPass with
            | true =>
              simp only [if_pos h1, if_neg h2, hs, if_neg hel, if_true]
              cases hfb : findBestPassDetails sample (startTime + passStart)
                  (startTime + t) maxOffNadir with
              | none =>
                simp only [hfb]
                exact ih (t + 60000) false passStart passes hps
              | some q =>
                simp only [hfb]
                refine ih (t + 60000) false passStart (passes ++ [q]) ?_
                intro p hp
                rcases List.mem_append.mp hp with hp | hp
                · exact hps p hp
                · obtain rfl : p = q := List.mem_singleton.mp hp
                  obtain ⟨_, _, h3, h4, h5⟩ :=
                    findBestPassDetails_some sample (startTime + passStart)
                      (startTime + t) maxOffNadir p hfb
                  exact ⟨h3, h4, h5⟩
            | false =>
              simp only [if_pos h1, if_neg h2, hs, if_neg hel, if_false]
              exact ih (t + 60000) false passStart passes hps
    · simpa only [if_neg h1] using hps

/-- Claim C1: for every `Pass` returned by `predictPasses` with off-nadir
constraint `maxOffNadir`, the pass satisfies `minOffNadir ≤ maxOffNadir`,
`sunElevationAtMax > 0`, and `maxElevation > 0` (the recorded elevation at
the instant of minimum off-nadir is strictly positive). -/
theorem C1_pass_constraints (sample : Sampler)
    (maxOffNadir limit maxDays startTime : ℤ) (p : Pass)
    (hp : p ∈ predictPasses sample maxOffNadir limit maxDays startTime) :
    p.minOffNadir ≤ maxOffNadir ∧ 0 < p.sunElevationAtMax ∧
      0 < p.maxElevationDeg := by
  have key : 0 < p.maxElevationRad ∧ 0 < p.sunElevationAtMax ∧
      p.minOffNadir ≤ maxOffNadir := by
    simp only [predictPasses] at hp
    rcases hcl : coarseLoop sample maxOffNadir limit startTime
        (maxDays * 86400000) (coarseFuel (maxDays * 86400000)) 0 false 0 []
      with ⟨passes, inPass, passStart⟩
    have hbase :=
      coarseLoop_mem sample maxOffNadir limit startTime (maxDays * 86400000)
        (coarseFuel (maxDays * 86400000)) 0 false 0 [] (by simp)
    rw [hcl] at hbase hp
    cases inPass with
    | false =>
      simp only [if_false] at hp
      exact hbase p hp
    | true =>
      simp only [if_true] at hp
      cases hfb : findBestPassDetails sample (startTime + passStart)
          (startTime + maxDays * 86400000) maxOffNadir with
      | none =>
        simp only [hfb] at hp
        exact hbase p hp
      | some q =>
        simp only [hfb] at hp
        rcases List.mem_append.mp hp with hp | hp
        · exact hbase p hp
        · obtain rfl : p = q := List.mem_singleton.mp hp
          obtain ⟨_, _, h3, h4, h5⟩ :=
            findBestPassDetails_some sample (startTime + passStart)
              (startTime + maxDays * 86400000) maxOffNadir p hfb
          exact ⟨h3, h4, h5⟩
  refine ⟨key.2.2, key.2.1, ?_⟩
  have h1 : (0:ℝ) < (p.maxElevationRad : ℝ) := by exact_mod_cast key.1
  have h2 : (0:ℝ) < 180 / Real.pi := by positivity
  exact mul_pos h1 h2

/-- Witness for C1: a concrete search returning one pass, at which the
three guarantees are checked. -/
theorem C1_pass_constraints_witness :
    (⟨0, 1, 5, 10⟩ : Pass).minOffNadir ≤ 30 ∧
      0 < (⟨0, 1, 5, 10⟩ : Pass).sunElevationAtMax ∧
      0 < (⟨0, 1, 5, 10⟩ : Pass).maxElevationDeg :=
  C1_pass_constraints sampleShortPass 30 1 1 0 ⟨0, 1, 5, 10⟩ (by decide)

/-- The coarse loop keeps its accumulator strictly sorted by `startTime`:
every recorded pass lies inside its coarse interval, coarse intervals are
handed out in increasing order, and while a pass is open every already
recorded pass precedes the open interval's start. -/
theorem coarseLoop_sorted (sample : Sampler)
    (maxOffNadir limit startTime maxTime : ℤ) :
    ∀ (fuel : ℕ) (t : ℤ) (inPass : Bool) (passStart : ℤ) (passes : List Pass)
      (passes' : List Pass) (inPass' : Bool) (passStart' : ℤ),
      List.Pairwise (fun a b => a.startTime < b.startTime) passes →
      (inPass = true →
        (∀ p ∈ passes, p.startTime < startTime + passStart) ∧ passStart ≤ t) →
      (inPass = false → ∀ p ∈ passes, p.startTime < startTime + t) →
      coarseLoop sample maxOffNadir limit startTime maxTime fuel t inPass
          passStart passes = (passes', inPass', passStart') →
      List.Pairwise (fun a b => a.startTime < b.startTime) passes' ∧
        (inPass' = true →
          ∀ p ∈ passes', p.startTime < startTime + passStart') := by
  intro fuel
  induction fuel with
  | zero =>
    intro t inPass passStart passes passes' inPass' passStart' hsort htrue _ heq
    rw [coarseLoop] at heq
    simp only [Prod.mk.injEq] at heq
    obtain ⟨rfl, rfl, rfl⟩ := heq
    exact ⟨hsort, fun h => (htrue h).1⟩
  | succ n ih =>
    intro t inPass passStart passes passes' inPass' passStart' hsort htrue hfalse heq
    rw [coarseLoop] at heq
    by_cases h1 : t < maxTime
    · by_cases h2 : limit ≤ (passes.length : ℤ)
      · simp only [if_pos h1, if_pos h2, Prod.mk.injEq] at heq
        obtain ⟨rfl, rfl, rfl⟩ := heq
        exact ⟨hsort, fun h => (htrue h).1⟩
      · cases hs : sample (startTime + t) with
        | none =>
          simp only [if_pos h1, if_neg h2, hs] at heq
          refine ih (t + 60000) inPass passStart passes passes' inPass'
            passStart' hsort ?_ ?_ heq
          · intro h
            exact ⟨(htrue h).1, by linarith [(htrue h).2]⟩
          · intro h p hp
            have := hfalse h p hp
            linarith
        | some s =>
          by_cases hel : 0 < s.elevationRad
          · cases inPass with
            | true =>
              simp only [if_pos h1, if_neg h2, hs, if_pos hel, if_true] at heq
              refine ih (t + 60000) true passStart passes passes' inPass'
                passStart' hsort ?_ ?_ heq
              · intro _
                exact ⟨(htrue rfl).1, by linarith [(htrue rfl).2]⟩
              · intro h
                exact absurd h (by simp)
            | false =>
              simp only [if_pos h1, if_neg h2, hs, if_pos hel, if_false] at heq
              refine ih (t + 60000) true t passes passes' inPass'
                passStart' hsort ?_ ?_ heq
              · intro _
                exact ⟨hfalse rfl, by linarith⟩
              · intro h
                exact absurd h (by simp)
          · cases inPass with
            | true =>
              simp only [if_pos h1, if_neg h2, hs, if_neg hel, if_true] at heq
              cases hfb : findBestPassDetails sample (startTime + passStart)
                  (startTime + t) maxOffNadir with
              | none =>
                simp only [hfb] at heq
                refine ih (t + 60000) false passStart passes passes' inPass'
                  passStart' hsort ?_ ?_ heq
                · intro h
                  exact absurd h (by simp)
                · intro _ p hp
                  have h3 := (htrue rfl).1 p hp
                  have h4 := (htrue rfl).2
                  linarith
              | some q =>
                simp only [hfb] at heq
                obtain ⟨hq1, hq2, _, _, _⟩ :=
                  findBestPassDetails_some sample (startTime + passStart)
                    (startTime + t) maxOffNadir q hfb
                refine ih (t + 60000) false passStart (passes ++ [q]) passes'
                  inPass' passStart' ?_ ?_ ?_ heq
                · refine List.pairwise_append.mpr
                    ⟨hsort, List.pairwise_singleton _ _, ?_⟩
                  intro a ha b hb
                  obtain rfl : b = q := List.mem_singleton.mp hb
                  have := (htrue rfl).1 a ha
                  linarith
                · intro h
                  exact absurd h (by simp)
                · intro _ p hp
                  rcases List.mem_append.mp hp with hp | hp
                  · have h3 := (htrue rfl).1 p hp
                    have h4 := (htrue rfl).2
                    linarith
                  · obtain rfl : p = q := List.mem_singleton.mp hp
                    linarith
            | false =>
              simp only [if_pos h1, if_neg h2, hs, if_neg hel, if_false] at heq
              refine ih (t + 60000) false passStart passes passes' inPass'
                passStart' hsort ?_ ?_ heq
              · intro h
                exact absurd h (by simp)
              · intro _ p hp
                have := hfalse rfl p hp
                linarith
    · simp only [if_neg h1, Prod.mk.injEq] at heq
      obtain ⟨rfl, rfl, rfl⟩ := heq
      exact ⟨hsort, fun h => (htrue h).1⟩

/-- Claim C2: for a single-satellite search (one sampler, one observer,
fixed constraints), the sequence of `Pass` records returned by
`predictPasses` is strictly increasing in `startTime`. -/
theorem C2_passes_strictly_sorted (sample : Sampler)
    (maxOffNadir limit maxDays startTime : ℤ) :
    List.Pairwise (fun a b => a.startTime < b.startTime)
      (predictPasses sample maxOffNadir limit maxDays startTime) := by
  simp only [predictPasses]
  rcases hcl : coarseLoop sample maxOffNadir limit startTime
      (maxDays * 86400000) (coarseFuel (maxDays * 86400000)) 0 false 0 []
    with ⟨passes, inPass, passStart⟩
  obtain ⟨hsort, hin⟩ :=
    coarseLoop_sorted sample maxOffNadir limit startTime (maxDays * 86400000)
      (coarseFuel (maxDays * 86400000)) 0 false 0 [] passes inPass passStart
      List.Pairwise.nil (by intro h; exact absurd h (by simp))
      (by intro _ p hp; cases hp) hcl
  cases inPass with
  | false => simpa only [if_false] using hsort
  | true =>
    simp only [if_true]
    cases hfb : findBestPassDetails sample (startTime + passStart)
        (startTime + maxDays * 86400000) maxOffNadir with
    | none => simpa only [hfb] using hsort
    | some q =>
      simp only [hfb]
      obtain ⟨hq1, _, _, _, _⟩ :=
        findBestPassDetails_some sample (startTime + passStart)
          (startTime + maxDays * 86400000) maxOffNadir q hfb
      refine List.pairwise_append.mpr ⟨hsort, List.pairwise_singleton _ _, ?_⟩
      intro a ha b hb
      obtain rfl : b = q := List.mem_singleton.mp hb
      have := hin rfl a ha
      linarith

/-- The coarse loop never pushes the accumulator past `limit`, and when it
exits still inside a pass the accumulator is strictly below `limit` (a
pass is pushed and `inPass` reset in the same iteration, and the break
check runs before any later sample). -/
theorem coarseLoop_limit (sample : Sampler)
    (maxOffNadir limit startTime maxTime : ℤ) :
    ∀ (fuel : ℕ) (t : ℤ) (inPass : Bool) (passStart : ℤ) (passes : List Pass)
      (passes' : List Pass) (inPass' : Bool) (passStart' : ℤ),
      (passes.length : ℤ) ≤ limit →
      (limit ≤ (passes.length : ℤ) → inPass = false) →
      coarseLoop sample maxOffNadir limit startTime maxTime fuel t inPass
          passStart passes = (passes', inPass', passStart') →
      (passes'.length : ℤ) ≤ limit ∧
        (inPass' = true → (passes'.length : ℤ) < limit) := by
  intro fuel
  induction fuel with
  | zero =>
    intro t inPass passStart passes passes' inPass' passStart' hle hinv heq
    rw [coarseLoop] at heq
    simp only [Prod.mk.injEq] at heq
    obtain ⟨rfl, rfl, rfl⟩ := heq
    refine ⟨hle, fun h => ?_⟩
    by_contra hcon
    push_neg at hcon
    exact absurd (hinv hcon) (by simp [h])
  | succ n ih =>
    intro t inPass passStart passes passes' inPass' passStart' hle hinv heq
    rw [coarseLoop] at heq
    by_cases h1 : t < maxTime
    · by_cases h2 : limit ≤ (passes.length : ℤ)
      · simp only [if_pos h1, if_pos h2, Prod.mk.injEq] at heq
        obtain ⟨rfl, rfl, rfl⟩ := heq
        refine ⟨hle, fun h => ?_⟩
        exact absurd (hinv h2) (by simp [h])
      · push_neg at h2
        cases hs : sample (startTime + t) with
        | none =>
          simp only [if_pos h1, if_neg (not_le.mpr h2), hs] at heq
          exact ih (t + 60000) inPass passStart passes passes' inPass'
            passStart' hle hinv heq
        | some s =>
          by_cases hel : 0 < s.elevationRad
          · cases inPass with
            | true =>
              simp only [if_pos h1, hs, if_pos hel, if_true,
                if_neg (not_le.mpr h2)] at heq
              exact ih (t + 60000) true passStart passes passes' inPass'
                passStart' hle (fun h => absurd h (not_le.mpr h2)) heq
            | false =>
              simp only [if_pos h1, hs, if_pos hel, if_false,
                if_neg (not_le.mpr h2)] at heq
              exact ih (t + 60000) true t passes passes' inPass'
                passStart' hle (fun h => absurd h (not_le.mpr h2)) heq
          · cases inPass with
            | true =>
              simp only [if_pos h1, hs, if_neg hel, if_true,
                if_neg (not_le.mpr h2)] at heq
              cases hfb : findBestPassDetails sample (startTime + passStart)
                  (startTime + t) maxOffNadir with
              | none =>
                simp only [hfb] at heq
                exact ih (t + 60000) false passStart passes passes' inPass'
                  passStart' hle (fun _ => rfl) heq
              | some q =>
                simp only [hfb] at heq
                refine ih (t + 60000) false passStart (passes ++ [q]) passes'
                  inPass' passStart' ?_ (fun _ => rfl) heq
                simp only [List.length_append, List.length_singleton]
                push_cast
                linarith
            | false =>
              simp only [if_pos h1, hs, if_neg hel, if_false,
                if_neg (not_le.mpr h2)] at heq
              exact ih (t + 60000) false passStart passes passes' inPass'
                passStart' hle hinv heq
    · simp only [if_neg h1, Prod.mk.injEq] at heq
      obtain ⟨rfl, rfl, rfl⟩ := heq
      refine ⟨hle, fun h => ?_⟩
      by_contra hcon
      push_neg at hcon
      exact absurd (hinv hcon) (by simp [h])

/-- Claim C4: with a positive integer `limit`, `predictPasses` returns at
most `limit` passes — including when the horizon is exhausted while still
inside a pass, so that the end-of-horizon boundary pass never pushes the
count past `limit` — and the coarse scan returns immediately (in any
state, with any fuel left) as soon as `limit` passes have been
accumulated. -/
theorem C4_limit_respected (sample : Sampler)
    (maxOffNadir maxDays startTime limit : ℤ) (hl : 0 < limit) :
    ((predictPasses sample maxOffNadir limit maxDays startTime).length : ℤ)
        ≤ limit ∧
      ∀ (fuel : ℕ) (t : ℤ) (inPass : Bool) (passStart : ℤ)
        (passes : List Pass) (maxTime : ℤ),
        limit ≤ (passes.length : ℤ) →
        coarseLoop sample maxOffNadir limit startTime maxTime fuel t inPass
            passStart passes = (passes, inPass, passStart) := by
  constructor
  · simp only [predictPasses]
    rcases hcl : coarseLoop sample maxOffNadir limit startTime
        (maxDays * 86400000) (coarseFuel (maxDays * 86400000)) 0 false 0 []
      with ⟨passes, inPass, passStart⟩
    obtain ⟨hle, hlt⟩ :=
      coarseLoop_limit sample maxOffNadir limit startTime (maxDays * 86400000)
        (coarseFuel (maxDays * 86400000)) 0 false 0 [] passes inPass passStart
        (by simpa using hl.le) (fun _ => rfl) hcl
    cases inPass with
    | false => simpa only [if_false] using hle
    | true =>
      simp only [if_true]
      cases hfb : findBestPassDetails sample (startTime + passStart)
          (startTime + maxDays * 86400000) maxOffNadir with
      | none => simpa only [hfb] using hle
      | some q =>
        simp only [hfb, List.length_append, List.length_singleton]
        have := hlt rfl
        push_cast
        linarith
  · intro fuel t inPass passStart passes maxTime hlim
    cases fuel with
    | zero => rw [coarseLoop]
    | succ n =>
      rw [coarseLoop]
      by_cases h1 : t < maxTime
      · rw [if_pos h1, if_pos hlim]
      · rw [if_neg h1]

/-- Witness for C4: the limit bound and the early-exit equation checked on
a concrete search with `limit = 1`. -/
theorem C4_limit_respected_witness :
    ((predictPasses sampleShortPass 30 1 1 0).length : ℤ) ≤ 1 ∧
      ∀ (fuel : ℕ) (t : ℤ) (inPass : Bool) (passStart : ℤ)
        (passes : List Pass) (maxTime : ℤ),
        (1 : ℤ) ≤ (passes.length : ℤ) →
        coarseLoop sampleShortPass 30 1 0 maxTime fuel t inPass
            passStart passes = (passes, inPass, passStart) :=
  C4_limit_respected sampleShortPass 30 1 0 1 (by norm_num)

/-- Claim C3 (counterexample): with `maxOffNadirDeg = 200`, far outside
[1, 90], `predictPasses` does not reject the request at the boundary: the
scan runs and the out-of-range constraint is used as-is by the acceptance
filter, so a pass with off-nadir angle 95° (> 90°) is returned. -/
theorem C3_counterexample :
    predictPasses sampleWideOffNadir 200 1 1 0 = [⟨0, 1, 95, 10⟩] := by
  decide

/-- Claim C3 (amended): `predictPasses` performs no input validation at
all.  An out-of-range `maxOffNadirDeg` is neither rejected nor clamped
(see the counterexample); `limit ≤ 0` makes the coarse scan break on its
first iteration and return the empty list; `maxDays ≤ 0` gives an empty
scan range and likewise returns the empty list.  No request is ever
rejected. -/
theorem C3_no_fail_fast (sample : Sampler)
    (maxOffNadir limit maxDays startTime : ℤ) :
    (limit ≤ 0 →
      predictPasses sample maxOffNadir limit maxDays startTime = []) ∧
    (maxDays ≤ 0 →
      predictPasses sample maxOffNadir limit maxDays startTime = []) := by
  constructor
  · intro hlim
    simp only [predictPasses]
    have hcl : coarseLoop sample maxOffNadir limit startTime
        (maxDays * 86400000) (coarseFuel (maxDays * 86400000)) 0 false 0 [] =
        ([], false, 0) := by
      cases hcf : coarseFuel (maxDays * 86400000) with
      | zero => rw [coarseLoop]
      | succ n =>
        rw [coarseLoop]
        by_cases h1 : (0:ℤ) < maxDays * 86400000
        · rw [if_pos h1, if_pos (by simpa using hlim)]
        · rw [if_neg h1]
    simp [hcl]
  · intro hdays
    simp only [predictPasses]
    have hmt : maxDays * 86400000 ≤ 0 := by nlinarith
    have hcf : coarseFuel (maxDays * 86400000) = 0 := by
      rw [coarseFuel, if_pos hmt]
    rw [hcf]
    simp [coarseLoop]

/-- Witness for C3 (amended): a concrete search with `limit = 0` and one
with `maxDays = -1`, both returning the empty list without being
rejected. -/
theorem C3_no_fail_fast_witness :
    predictPasses sampleShortPass 30 0 365 0 = [] ∧
      predictPasses sampleShortPass 30 5 (-1) 0 = [] :=
  ⟨(C3_no_fail_fast sampleShortPass 30 0 365 0).1 (by norm_num),
   (C3_no_fail_fast sampleShortPass 30 5 (-1) 0).2 (by norm_num)⟩

/-- Claim C5 (counterexample): a sampled instant with no propagator
position is NOT treated as "elevation ≤ 0".  On `samplePropGap` the source
keeps the pass opened at t = 0 open across the minute-long propagation
gap, merging two visibility windows into one pass and leaving room for
the later 8°-off-nadir pass (with `limit = 2`); under the claimed
"equivalent to elevation ≤ 0" semantics the gap would end the first pass,
producing a different pass list. -/
theorem C5_counterexample :
    predictPasses samplePropGap 30 2 1 0 =
        [⟨0, 1, 5, 10⟩, ⟨240000, 1, 8, 10⟩] ∧
      predictPassesNoneNotVisible samplePropGap 30 2 1 0 =
        [⟨0, 1, 5, 10⟩, ⟨120000, 1, 20, 10⟩] := by
  decide

/-- Claim C5 (amended): a sampled instant at which the propagator returns
no position is skipped with the scan state unchanged — in particular an
in-progress pass is NOT ended at that sample (the `inPass` flag and
`passStartTime` survive the gap) — and each loop continues with the next
instant; the search as a whole is never aborted (both scans are total and
return their accumulated result). -/
theorem C5_none_sample_skipped (sample : Sampler)
    (maxOffNadir limit startTime maxTime endMs : ℤ) (fuel : ℕ) (t : ℤ)
    (inPass : Bool) (passStart : ℤ) (passes : List Pass)
    (best : Option Pass) :
    (sample (startTime + t) = none → t < maxTime →
      ¬ limit ≤ (passes.length : ℤ) →
      coarseLoop sample maxOffNadir limit startTime maxTime (fuel + 1) t
          inPass passStart passes =
        coarseLoop sample maxOffNadir limit startTime maxTime fuel
          (t + 60000) inPass passStart passes) ∧
    (sample t = none → t ≤ endMs →
      fineLoop sample endMs (fuel + 1) t best =
        fineLoop sample endMs fuel (t + 5000) best) := by
  constructor
  · intro h1 h2 h3
    rw [coarseLoop]
    simp only [if_pos h2, if_neg h3, h1]
  · intro h1 h2
    rw [fineLoop]
    simp only [if_pos h2, h1]

/-- Witness for C5 (amended): the skip equations checked at the concrete
propagation gap of `samplePropGap` (t = 60000), for both loops, with the
`inPass` state and the running best candidate left unchanged. -/
theorem C5_none_sample_skipped_witness :
    (coarseLoop samplePropGap 30 2 0 86400000 1438 60000 true 0 [] =
        coarseLoop samplePropGap 30 2 0 86400000 1437 120000 true 0 []) ∧
      (fineLoop samplePropGap 180000 24 60000 (some ⟨0, 1, 5, 10⟩) =
        fineLoop samplePropGap 180000 23 65000 (some ⟨0, 1, 5, 10⟩)) :=
  ⟨(C5_none_sample_skipped samplePropGap 30 2 0 86400000 180000 1437 60000
      true 0 [] none).1 (by decide) (by decide) (by decide),
   (C5_none_sample_skipped samplePropGap 30 2 0 86400000 180000 23 60000
      true 0 [] (some ⟨0, 1, 5, 10⟩)).2 (by decide) (by decide)⟩

/-- Core monotonicity fact behind the footprint geometry: for a fixed
ratio `k = (R + h)/R ≥ 1`, the Earth central angle `arcsin (k·sin α) − α`
is non-decreasing in `α` on `[0, a]` whenever `a ≤ π/2` and
`k·sin a ≤ 1` (below the horizon limit). -/
theorem arcsin_mul_sin_sub_monotoneOn (k a : ℝ) (hk : 1 ≤ k)
    (ha : a ≤ Real.pi / 2) (hka : k * Real.sin a ≤ 1) :
    MonotoneOn (fun x => Real.arcsin (k * Real.sin x) - x) (Set.Icc 0 a) := by
  have hk0 : (0:ℝ) < k := lt_of_lt_of_le one_pos hk
  have hderiv : ∀ x ∈ Set.Ioo (0:ℝ) a,
      HasDerivAt (fun y => Real.arcsin (k * Real.sin y) - y)
        (1 / Real.sqrt (1 - (k * Real.sin x) ^ 2) * (k * Real.cos x) - 1) x ∧
        1 ≤ 1 / Real.sqrt (1 - (k * Real.sin x) ^ 2) * (k * Real.cos x) := by
    intro x hx
    have hx0 : 0 < x := hx.1
    have hxa : x < a := hx.2
    have hxpi : x < Real.pi / 2 := lt_of_lt_of_le hxa ha
    have hsx0 : 0 ≤ Real.sin x :=
      Real.sin_nonneg_of_nonneg_of_le_pi hx0.le
        (le_trans hxpi.le (by linarith [Real.pi_pos]))
    have hsxa : Real.sin x < Real.sin a := by
      refine Real.strictMonoOn_sin ⟨?_, hxpi.le⟩ ⟨?_, ha⟩ hxa
      · linarith [Real.pi_pos]
      · linarith [Real.pi_pos]
    have hlt1 : k * Real.sin x < 1 :=
      lt_of_lt_of_le (mul_lt_mul_of_pos_left hsxa hk0) hka
    have hgt : (-1:ℝ) < k * Real.sin x := by
      nlinarith [mul_nonneg hk0.le hsx0]
    have hcos : 0 < Real.cos x :=
      Real.cos_pos_of_mem_Ioo ⟨by linarith [Real.pi_pos], hxpi⟩
    have hsq : 0 < 1 - (k * Real.sin x) ^ 2 := by
      nlinarith [mul_nonneg hk0.le hsx0]
    have hsqrt : 0 < Real.sqrt (1 - (k * Real.sin x) ^ 2) :=
      Real.sqrt_pos.mpr hsq
    constructor
    · have h1 : HasDerivAt (fun y => k * Real.sin y) (k * Real.cos x) x :=
        (Real.hasDerivAt_sin x).const_mul k
      have h2 : HasDerivAt Real.arcsin
          (1 / Real.sqrt (1 - (k * Real.sin x) ^ 2)) (k * Real.sin x) :=
        Real.hasDerivAt_arcsin (ne_of_gt hgt) (ne_of_lt hlt1)
      exact (h2.comp x h1).sub (hasDerivAt_id x)
    · have hle : Real.sqrt (1 - (k * Real.sin x) ^ 2) ≤ k * Real.cos x := by
        have hb : 1 - (k * Real.sin x) ^ 2 ≤ (k * Real.cos x) ^ 2 := by
          have hk2 : 1 ≤ k ^ 2 := by nlinarith
          have hsum : (k * Real.sin x) ^ 2 + (k * Real.cos x) ^ 2 = k ^ 2 := by
            linear_combination k ^ 2 * Real.sin_sq_add_cos_sq x
          linarith
        calc Real.sqrt (1 - (k * Real.sin x) ^ 2)
            ≤ Real.sqrt ((k * Real.cos x) ^ 2) := Real.sqrt_le_sqrt hb
          _ = k * Real.cos x := Real.sqrt_sq (by positivity)
      rw [div_mul_eq_mul_div, one_mul, le_div_iff₀ hsqrt, one_mul]
      exact hle
  apply monotoneOn_of_deriv_nonneg (convex_Icc 0 a)
  · exact ((Real.continuous_arcsin.comp
      (continuous_const.mul Real.continuous_sin)).sub continuous_id).continuousOn
  · intro x hx
    rw [interior_Icc] at hx
    exact ((hderiv x hx).1).differentiableAt.differentiableWithinAt
  · intro x hx
    rw [interior_Icc] at hx
    rw [(hderiv x hx).1.deriv]
    linarith [(hderiv x hx).2]

/-- Claim C6: for fixed altitude `h ≥ 0`, `calculateFootprintRadius` is
non-decreasing in the off-nadir angle on the sub-horizon range
(off-nadir angles in `[0°, 90°]` with `sin α · (R+h)/R ≤ 1`), and the
radius at off-nadir 0° is 0. -/
theorem C6_footprint_monotone (altitudeKm d1 d2 : ℝ) (hh : 0 ≤ altitudeKm)
    (h0 : 0 ≤ d1) (h12 : d1 ≤ d2) (h90 : d2 ≤ 90)
    (hhor : footprintTerm altitudeKm d2 ≤ 1) :
    calculateFootprintRadius altitudeKm d1 ≤
        calculateFootprintRadius altitudeKm d2 ∧
      calculateFootprintRadius altitudeKm 0 = 0 := by
  constructor
  · have hk : 1 ≤ (6371 + altitudeKm) / 6371 := by
      rw [le_div_iff₀ (by norm_num : (0:ℝ) < 6371)]
      linarith
    have hrpos : (0:ℝ) < Real.pi / 180 := by positivity
    have ha2 : d2 * (Real.pi / 180) ≤ Real.pi / 2 := by
      nlinarith [Real.pi_pos]
    have ha1nn : 0 ≤ d1 * (Real.pi / 180) := by positivity
    have ha12 : d1 * (Real.pi / 180) ≤ d2 * (Real.pi / 180) :=
      mul_le_mul_of_nonneg_right h12 hrpos.le
    simp only [footprintTerm] at hhor
    have hsin12 : Real.sin (d1 * (Real.pi / 180)) ≤
        Real.sin (d2 * (Real.pi / 180)) := by
      refine Real.strictMonoOn_sin.monotoneOn ⟨?_, ?_⟩ ⟨?_, ha2⟩ ha12
      · linarith [Real.pi_pos]
      · linarith
      · linarith [Real.pi_pos]
    have hterm12 : footprintTerm altitudeKm d1 ≤ footprintTerm altitudeKm d2 := by
      simp only [footprintTerm]
      exact mul_le_mul_of_nonneg_left hsin12 (by positivity)
    have hterm2 : footprintTerm altitudeKm d2 ≤ 1 := by
      simpa only [footprintTerm] using hhor
    have hcl1 : footprintTermClamped altitudeKm d1 = footprintTerm altitudeKm d1 := by
      rw [footprintTermClamped, if_neg (not_lt.mpr (le_trans hterm12 hterm2))]
    have hcl2 : footprintTermClamped altitudeKm d2 = footprintTerm altitudeKm d2 := by
      rw [footprintTermClamped, if_neg (not_lt.mpr hterm2)]
    have hg := arcsin_mul_sin_sub_monotoneOn ((6371 + altitudeKm) / 6371)
      (d2 * (Real.pi / 180)) hk ha2 hhor ⟨ha1nn, ha12⟩
      ⟨le_trans ha1nn ha12, le_rfl⟩ ha12
    simp only [calculateFootprintRadius, hcl1, hcl2, footprintTerm]
    simp only at hg
    nlinarith [hg]
  · have h1 : footprintTerm altitudeKm 0 = 0 := by
      simp [footprintTerm]
    have h2 : footprintTermClamped altitudeKm 0 = 0 := by
      rw [footprintTermClamped, h1, if_neg (by norm_num)]
    simp [calculateFootprintRadius, h2, Real.arcsin_zero]

/-- Witness for C6: altitude 0, off-nadir angles 0° and 30° (where
`sin 30° = 1/2` keeps the term below the horizon limit). -/
theorem C6_footprint_monotone_witness :
    calculateFootprintRadius 0 0 ≤ calculateFootprintRadius 0 30 ∧
      calculateFootprintRadius 0 0 = 0 :=
  C6_footprint_monotone 0 0 30 le_rfl le_rfl (by norm_num) (by norm_num)
    (by
      rw [footprintTerm, show (30:ℝ) * (Real.pi / 180) = Real.pi / 6 by ring,
        Real.sin_pi_div_six]
      norm_num)

/-- Claim C7: the two repository revisions of `calculateFootprintRadius`
return equal values on every input whose term is below the horizon limit
(`sin α · (R+h)/R ≤ 1`); they differ only on horizon-exceeded inputs,
where the `part_002` revision returns 0 while the `script.js` revision
clamps and returns the boundary value `R · (π/2 − α) · 1000`. -/
theorem C7_revisions_agree (altitudeKm offNadirDeg : ℝ)
    (_hh : 0 ≤ altitudeKm) :
    (footprintTerm altitudeKm offNadirDeg ≤ 1 →
      calculateFootprintRadius altitudeKm offNadirDeg =
        calculateFootprintRadius_part002 altitudeKm offNadirDeg) ∧
    (1 < footprintTerm altitudeKm offNadirDeg →
      calculateFootprintRadius_part002 altitudeKm offNadirDeg = 0 ∧
        calculateFootprintRadius altitudeKm offNadirDeg =
          6371 * (Real.pi / 2 - offNadirDeg * (Real.pi / 180)) * 1000) := by
  constructor
  · intro hle
    rw [calculateFootprintRadius, calculateFootprintRadius_part002,
      if_neg (not_lt.mpr hle), footprintTermClamped, if_neg (not_lt.mpr hle)]
  · intro hgt
    refine ⟨by rw [calculateFootprintRadius_part002, if_pos hgt], ?_⟩
    rw [calculateFootprintRadius, footprintTermClamped, if_pos hgt,
      Real.arcsin_one]

/-- Witness for C7: at altitude 620 km the two revisions agree at
off-nadir 30° (below the horizon limit), and at off-nadir 90° (beyond
it) one returns 0 while the other returns the clamped boundary value. -/
theorem C7_revisions_agree_witness :
    (calculateFootprintRadius 620 30 =
        calculateFootprintRadius_part002 620 30) ∧
      (calculateFootprintRadius_part002 620 90 = 0 ∧
        calculateFootprintRadius 620 90 =
          6371 * (Real.pi / 2 - 90 * (Real.pi / 180)) * 1000) :=
  ⟨(C7_revisions_agree 620 30 (by norm_num)).1
    (by
      rw [footprintTerm, show (30:ℝ) * (Real.pi / 180) = Real.pi / 6 by ring,
        Real.sin_pi_div_six]
      norm_num),
   (C7_revisions_agree 620 90 (by norm_num)).2
    (by
      rw [footprintTerm, show (90:ℝ) * (Real.pi / 180) = Real.pi / 2 by ring,
        Real.sin_pi_div_two]
      norm_num)⟩

/-- Claim C10: for every altitude `h ≥ 0` and off-nadir angle in
`[0°, 90°]`, the clamping revision of `calculateFootprintRadius` is safe:
the clamped asin argument lies in [−1, 1], the asin of it dominates the
off-nadir angle `α`, so the Earth central angle `β = η − α` and the
returned radius are never negative. -/
theorem C10_footprint_nonneg (altitudeKm offNadirDeg : ℝ)
    (hh : 0 ≤ altitudeKm) (hd0 : 0 ≤ offNadirDeg) (hd90 : offNadirDeg ≤ 90) :
    (-1 ≤ footprintTermClamped altitudeKm offNadirDeg ∧
        footprintTermClamped altitudeKm offNadirDeg ≤ 1) ∧
      offNadirDeg * (Real.pi / 180) ≤
        Real.arcsin (footprintTermClamped altitudeKm offNadirDeg) ∧
      0 ≤ calculateFootprintRadius altitudeKm offNadirDeg := by
  have hpi := Real.pi_pos
  have ha0 : 0 ≤ offNadirDeg * (Real.pi / 180) := by positivity
  have ha2 : offNadirDeg * (Real.pi / 180) ≤ Real.pi / 2 := by nlinarith
  have hsin0 : 0 ≤ Real.sin (offNadirDeg * (Real.pi / 180)) :=
    Real.sin_nonneg_of_nonneg_of_le_pi ha0 (by linarith)
  have hk : 1 ≤ (6371 + altitudeKm) / 6371 := by
    rw [le_div_iff₀ (by norm_num : (0:ℝ) < 6371)]
    linarith
  have hterm0 : 0 ≤ footprintTerm altitudeKm offNadirDeg := by
    rw [footprintTerm]
    exact mul_nonneg (le_trans zero_le_one hk) hsin0
  have harcsin : offNadirDeg * (Real.pi / 180) ≤
      Real.arcsin (footprintTermClamped altitudeKm offNadirDeg) := by
    rw [footprintTermClamped]
    by_cases hgt : 1 < footprintTerm altitudeKm offNadirDeg
    · rw [if_pos hgt, Real.arcsin_one]
      exact ha2
    · rw [if_neg hgt]
      have hsle : Real.sin (offNadirDeg * (Real.pi / 180)) ≤
          footprintTerm altitudeKm offNadirDeg := by
        rw [footprintTerm]
        exact le_mul_of_one_le_left hsin0 hk
      calc offNadirDeg * (Real.pi / 180)
          = Real.arcsin (Real.sin (offNadirDeg * (Real.pi / 180))) :=
            (Real.arcsin_sin (by linarith) ha2).symm
        _ ≤ Real.arcsin (footprintTerm altitudeKm offNadirDeg) :=
            Real.monotone_arcsin hsle
  refine ⟨⟨?_, ?_⟩, harcsin, ?_⟩
  · rw [footprintTermClamped]
    by_cases hgt : 1 < footprintTerm altitudeKm offNadirDeg
    · rw [if_pos hgt]
      norm_num
    · rw [if_neg hgt]
      linarith
  · rw [footprintTermClamped]
    by_cases hgt : 1 < footprintTerm altitudeKm offNadirDeg
    · rw [if_pos hgt]
    · rw [if_neg hgt]
      exact not_lt.mp hgt
  · rw [calculateFootprintRadius]
    nlinarith [harcsin]

/-- Witness for C10: altitude 620 km, off-nadir 30°. -/
theorem C10_footprint_nonneg_witness :
    (-1 ≤ footprintTermClamped 620 30 ∧ footprintTermClamped 620 30 ≤ 1) ∧
      (30 : ℝ) * (Real.pi / 180) ≤ Real.arcsin (footprintTermClamped 620 30) ∧
      0 ≤ calculateFootprintRadius 620 30 :=
  C10_footprint_nonneg 620 30 (by norm_num) (by norm_num) (by norm_num)

/-- Claim C8: for every sun declination in [−90°, 90°] and every latitude
in the scan range [−90°, 90°], the computed sine of solar elevation at
hour angle −22.5° (10:30 local solar time) is at most the one at hour
angle 0° (solar noon); consequently the set of latitudes classified good
(elevation ≥ 30°) at 10:30 is a subset of the set classified good at
noon. -/
theorem C8_ten30_below_noon (decDeg : ℝ)
    (hdec : decDeg ∈ Set.Icc (-90 : ℝ) 90) :
    (∀ latDeg ∈ Set.Icc (-90 : ℝ) 90,
      sinSolarElevation latDeg decDeg (-22.5) ≤
        sinSolarElevation latDeg decDeg 0) ∧
      solarGoodSet decDeg (-22.5) ⊆ solarGoodSet decDeg 0 := by
  have hcosrange : ∀ x : ℝ, -90 ≤ x → x ≤ 90 →
      0 ≤ Real.cos (x * (Real.pi / 180)) := by
    intro x h1 h2
    apply Real.cos_nonneg_of_mem_Icc
    have e1 : (-90 : ℝ) * (Real.pi / 180) = -(Real.pi / 2) := by ring
    have e2 : (90 : ℝ) * (Real.pi / 180) = Real.pi / 2 := by ring
    constructor
    · rw [← e1]
      exact mul_le_mul_of_nonneg_right h1 (by positivity)
    · rw [← e2]
      exact mul_le_mul_of_nonneg_right h2 (by positivity)
  have key : ∀ latDeg ∈ Set.Icc (-90 : ℝ) 90,
      sinSolarElevation latDeg decDeg (-22.5) ≤
        sinSolarElevation latDeg decDeg 0 := by
    intro latDeg hlat
    have hcoslat := hcosrange latDeg hlat.1 hlat.2
    have hcosdec := hcosrange decDeg hdec.1 hdec.2
    have hc1 : Real.cos ((-22.5 : ℝ) * (Real.pi / 180)) ≤ 1 :=
      Real.cos_le_one _
    rw [sinSolarElevation, sinSolarElevation, zero_mul, Real.cos_zero,
      mul_one]
    have := mul_le_of_le_one_right (mul_nonneg hcoslat hcosdec) hc1
    linarith
  refine ⟨key, ?_⟩
  rintro latDeg ⟨hmem, hgood⟩
  exact ⟨hmem, le_trans hgood (key latDeg hmem)⟩

/-- Witness for C8: declination 0° (an equinox). -/
theorem C8_ten30_below_noon_witness :
    (∀ latDeg ∈ Set.Icc (-90 : ℝ) 90,
      sinSolarElevation latDeg 0 (-22.5) ≤ sinSolarElevation latDeg 0 0) ∧
      solarGoodSet 0 (-22.5) ⊆ solarGoodSet 0 0 :=
  C8_ten30_below_noon 0 (by norm_num [Set.mem_Icc])

/-- The `getCirclePath` loop body produces the same vertex at bearing
360° as at bearing 0°: `sin(2π) = sin 0` and `cos(2π) = cos 0` exactly. -/
theorem circlePoint_bearing_360 (centerLat centerLng radiusDeg : ℝ) :
    circlePoint centerLat centerLng radiusDeg 360 =
      circlePoint centerLat centerLng radiusDeg 0 := by
  have h360 : (360 : ℝ) * (Real.pi / 180) = 2 * Real.pi := by ring
  simp only [circlePoint, h360, zero_mul, Real.sin_two_pi, Real.cos_two_pi,
    Real.sin_zero, Real.cos_zero, mul_one, mul_zero]

/-- `getCirclePath` always returns 73 vertices. -/
theorem getCirclePath_length (centerLat centerLng radiusDeg : ℝ) :
    (getCirclePath centerLat centerLng radiusDeg).length = 73 := by
  rw [getCirclePath, List.length_map, List.length_range]

/-- The first and last vertices of any `getCirclePath` output coincide. -/
theorem getCirclePath_closed (centerLat centerLng radiusDeg : ℝ) :
    (getCirclePath centerLat centerLng radiusDeg).head? =
      (getCirclePath centerLat centerLng radiusDeg).getLast? := by
  have h1 : (getCirclePath centerLat centerLng radiusDeg).head? =
      some (circlePoint centerLat centerLng radiusDeg (5 * ((0:ℕ) : ℝ))) := rfl
  have h2 : (getCirclePath centerLat centerLng radiusDeg).getLast? =
      some (circlePoint centerLat centerLng radiusDeg (5 * ((72:ℕ) : ℝ))) := rfl
  rw [h1, h2, show (5 * ((0:ℕ) : ℝ)) = 0 by norm_num,
    show (5 * ((72:ℕ) : ℝ)) = 360 by norm_num, circlePoint_bearing_360]

/-- Claim C9: for every instant (every sub-solar point), the terminator
path — `getTerminatorPath` composed with `getCirclePath` at radius 90°,
bearings sampled every 5° from 0° to 360° — is a sequence of exactly 73
vertices whose first and last vertices coincide (a closed ring). -/
theorem C9_terminator_closed_ring (sunLat sunLng : ℝ) :
    (getTerminatorPath sunLat sunLng).length = 73 ∧
      (getTerminatorPath sunLat sunLng).head? =
        (getTerminatorPath sunLat sunLng).getLast? := by
  constructor
  · simp only [getTerminatorPath]
    exact getCirclePath_length _ _ _
  · simp only [getTerminatorPath]
    exact getCirclePath_closed _ _ _

end SatTrack
